import Mathlib

/-!
Verification of the `OAuth2SessionList` view component
(`frontend/src/components/OAuth2SessionList.tsx`).

The component renders a heading, one `OAuth2Session` child per connection
edge (keyed by the edge's cursor), and a "Load more" button — present only
when `hasNext` is true — whose click handler calls `loadNext(2)`.

The connection bookkeeping (appending pages, updating `hasNext`, error
behaviour) is performed by the external `react-relay` library through
`usePaginationFragment`; that code is not part of this repository, so the
corresponding operations are modelled from the specification and marked as
such in their doc comments.
-/

/-- A session edge: an opaque pagination cursor paired with a session node.
The node type is kept abstract — the list view never inspects it. -/
structure SessionEdge (Node : Type) where
  cursor : String
  node : Node
deriving Repr, DecidableEq

/-- Pagination metadata of a connection response (`pageInfo`). -/
structure PageInfo where
  hasNextPage : Bool
deriving Repr, DecidableEq

/-- Connection state held by `usePaginationFragment`: the ordered edge
sequence and the has-more flag. -/
structure ConnectionState (Node : Type) where
  edges : List (SessionEdge Node)
  hasNext : Bool
deriving Repr, DecidableEq

/-- A page response from the data source: a list of edges plus optional
pagination metadata (`pageInfo` may be missing in a malformed response). -/
structure PageResponse (Node : Type) where
  edges : List (SessionEdge Node)
  pageInfo : Option PageInfo
deriving Repr, DecidableEq

/-- The `hasNext` value a response yields: taken from `pageInfo.hasNextPage`
when present, and `false` (fail safe) when `pageInfo` is missing. -/
def responseHasNext {Node : Type} (resp : PageResponse Node) : Bool :=
  match resp.pageInfo with
  | some pi => pi.hasNextPage
  | none => false

/-- Modelled from the spec: the connection update performed by `react-relay`
for a successful `loadNext` — this library code is not in the repository.
"Invoking it requests the next page of a specified size and appends returned
edges to the end of the existing sequence, then updates hasNext from the
response"; a missing `pageInfo` is treated as `hasNext = false`. -/
def loadMoreSuccess {Node : Type} (state : ConnectionState Node)
    (resp : PageResponse Node) : ConnectionState Node :=
  { edges := state.edges ++ resp.edges
    hasNext := responseHasNext resp }

/-- Modelled from the spec: outcome of a `loadNext` attempt — this
`react-relay` library code is not in the repository. A failed fetch
(`none`) leaves the Connection State exactly as it was ("A failed load-more
leaves edges unchanged from before the attempt"). -/
def loadMoreResult {Node : Type} (state : ConnectionState Node) :
    Option (PageResponse Node) → ConnectionState Node
  | some resp => loadMoreSuccess state resp
  | none => state

/-- A sequence of successful load-more calls, applied in order. -/
def applyLoads {Node : Type} (state : ConnectionState Node)
    (resps : List (PageResponse Node)) : ConnectionState Node :=
  resps.foldl loadMoreSuccess state

/-- One element of the component's rendered output, mirroring the JSX:
the `<h2>` heading, one `<OAuth2Session key={n.cursor} session={n.node}/>`
per edge, and the `<button onClick={() => loadNext(pageSize)}>`. -/
inductive RenderElement (Node : Type) where
  | heading (text : String)
  | sessionItem (key : String) (session : Node)
  | loadMoreButton (pageSize : Nat)
deriving Repr, DecidableEq

/-- The render function of the `OAuth2SessionList` component, translated
from the JSX: a heading, `data.oauth2Sessions.edges.map` producing one
`OAuth2Session` keyed by the edge's cursor, then `hasNext ? <button
onClick={() => loadNext(2)}> : null`. -/
def OAuth2SessionList {Node : Type} (state : ConnectionState Node) :
    List (RenderElement Node) :=
  [RenderElement.heading "List of OAuth 2.0 sessions:"]
    ++ state.edges.map (fun n => RenderElement.sessionItem n.cursor n.node)
    ++ (if state.hasNext then [RenderElement.loadMoreButton 2] else [])

/-- The session nodes of a rendered output, in render order. -/
def renderedSessions {Node : Type} : List (RenderElement Node) → List Node
  | [] => []
  | RenderElement.sessionItem _ s :: rest => s :: renderedSessions rest
  | _ :: rest => renderedSessions rest

/-- The identity keys of the rendered session items, in render order. -/
def renderedKeys {Node : Type} : List (RenderElement Node) → List String
  | [] => []
  | RenderElement.sessionItem k _ :: rest => k :: renderedKeys rest
  | _ :: rest => renderedKeys rest

/-- The page sizes of the load-more buttons in a rendered output. -/
def renderedButtonSizes {Node : Type} : List (RenderElement Node) → List Nat
  | [] => []
  | RenderElement.loadMoreButton n :: rest => n :: renderedButtonSizes rest
  | _ :: rest => renderedButtonSizes rest

/-- Erases the session nodes from a render element, keeping the view's own
output structure (heading text, item keys, button page size). -/
def elementSkeleton {Node : Type} : RenderElement Node → RenderElement Unit
  | RenderElement.heading t => RenderElement.heading t
  | RenderElement.sessionItem k _ => RenderElement.sessionItem k ()
  | RenderElement.loadMoreButton n => RenderElement.loadMoreButton n

/-- The spec's worked example: first page `[{cursor:"c1",node:S1},
{cursor:"c2",node:S2}]` with `hasNext = true`. -/
def examplePage1 : ConnectionState String :=
  { edges := [⟨"c1", "S1"⟩, ⟨"c2", "S2"⟩], hasNext := true }

/-- The spec's worked example: a load-more response of
`[{cursor:"c3",node:S3}]` with `hasNextPage = false`. -/
def exampleResponse : PageResponse String :=
  { edges := [⟨"c3", "S3"⟩], pageInfo := some ⟨false⟩ }

theorem renderedSessions_append {Node : Type} (a b : List (RenderElement Node)) :
    renderedSessions (a ++ b) = renderedSessions a ++ renderedSessions b := by
  induction a with
  | nil => rfl
  | cons x rest ih => cases x <;> simp [renderedSessions, ih]

theorem renderedKeys_append {Node : Type} (a b : List (RenderElement Node)) :
    renderedKeys (a ++ b) = renderedKeys a ++ renderedKeys b := by
  induction a with
  | nil => rfl
  | cons x rest ih => cases x <;> simp [renderedKeys, ih]

theorem renderedButtonSizes_append {Node : Type} (a b : List (RenderElement Node)) :
    renderedButtonSizes (a ++ b) = renderedButtonSizes a ++ renderedButtonSizes b := by
  induction a with
  | nil => rfl
  | cons x rest ih => cases x <;> simp [renderedButtonSizes, ih]

theorem renderedSessions_items {Node : Type} (edges : List (SessionEdge Node)) :
    renderedSessions (edges.map (fun n => RenderElement.sessionItem n.cursor n.node))
      = edges.map SessionEdge.node := by
  induction edges with
  | nil => rfl
  | cons e rest ih => simp [renderedSessions, ih]

theorem renderedKeys_items {Node : Type} (edges : List (SessionEdge Node)) :
    renderedKeys (edges.map (fun n => RenderElement.sessionItem n.cursor n.node))
      = edges.map SessionEdge.cursor := by
  induction edges with
  | nil => rfl
  | cons e rest ih => simp [renderedKeys, ih]

theorem renderedButtonSizes_items {Node : Type} (edges : List (SessionEdge Node)) :
    renderedButtonSizes (edges.map (fun n => RenderElement.sessionItem n.cursor n.node))
      = [] := by
  induction edges with
  | nil => rfl
  | cons e rest ih => simp [renderedButtonSizes, ih]

/-- The session nodes the component renders are exactly the edge nodes,
in edge order. -/
theorem renderedSessions_render {Node : Type} (state : ConnectionState Node) :
    renderedSessions (OAuth2SessionList state) = state.edges.map SessionEdge.node := by
  obtain ⟨es, b⟩ := state
  cases b <;>
    simp [OAuth2SessionList, renderedSessions_append, renderedSessions,
      renderedSessions_items]

/-- The identity keys the component renders are exactly the edge cursors,
in edge order. -/
theorem renderedKeys_render {Node : Type} (state : ConnectionState Node) :
    renderedKeys (OAuth2SessionList state) = state.edges.map SessionEdge.cursor := by
  obtain ⟨es, b⟩ := state
  cases b <;>
    simp [OAuth2SessionList, renderedKeys_append, renderedKeys, renderedKeys_items]

/-- The load-more buttons in a render: a single `loadNext(2)` button when
`hasNext` is true, none otherwise. -/
theorem renderedButtonSizes_render {Node : Type} (state : ConnectionState Node) :
    renderedButtonSizes (OAuth2SessionList state)
      = if state.hasNext then [2] else [] := by
  obtain ⟨es, b⟩ := state
  cases b <;>
    simp [OAuth2SessionList, renderedButtonSizes_append, renderedButtonSizes,
      renderedButtonSizes_items]

theorem button_mem_iff {Node : Type} (n : Nat) (l : List (RenderElement Node)) :
    RenderElement.loadMoreButton n ∈ l ↔ n ∈ renderedButtonSizes l := by
  induction l with
  | nil => simp [renderedButtonSizes]
  | cons x rest ih => cases x <;> simp [renderedButtonSizes, ih]

/-- C1: for every connection state and every successful load-more response,
the load-more action appends the returned edges to the end of the existing
edge sequence (preserving prior order) and updates `hasNext` from the
response; concretely, starting from the spec's first page and applying the
single-edge response with `hasNextPage = false`, the view renders the
sessions S1, S2, S3 in that order and no load-more control. -/
theorem C1_loadMore_appends_and_example :
    (∀ (Node : Type) (state : ConnectionState Node) (resp : PageResponse Node),
        (loadMoreSuccess state resp).edges = state.edges ++ resp.edges ∧
        (loadMoreSuccess state resp).hasNext = responseHasNext resp) ∧
    renderedSessions (OAuth2SessionList (loadMoreSuccess examplePage1 exampleResponse))
      = ["S1", "S2", "S3"] ∧
    renderedButtonSizes (OAuth2SessionList (loadMoreSuccess examplePage1 exampleResponse))
      = [] :=
  ⟨fun _ _ _ => ⟨rfl, rfl⟩, by decide, by decide⟩

/-- C2: for every connection state, the load-more control is present in the
rendered output if and only if `hasNext` is true. -/
theorem C2_button_iff_hasNext (Node : Type) (state : ConnectionState Node) :
    (∃ n, RenderElement.loadMoreButton n ∈ OAuth2SessionList state)
      ↔ state.hasNext = true := by
  obtain ⟨es, b⟩ := state
  cases b <;> simp [button_mem_iff, renderedButtonSizes_render]

/-- C3: across any sequence of successful load-more calls, the edges list is
only extended: the final edges are the initial edges followed by the
returned pages in order, so the length equals the initial length plus the
sum of the returned page sizes and is never below the initial length. -/
theorem C3_edges_only_grow (Node : Type) (state : ConnectionState Node)
    (resps : List (PageResponse Node)) :
    (applyLoads state resps).edges
        = state.edges ++ (resps.map PageResponse.edges).flatten ∧
    (applyLoads state resps).edges.length
        = state.edges.length + (resps.map (fun r => r.edges.length)).sum ∧
    state.edges.length ≤ (applyLoads state resps).edges.length := by
  have hedges : (applyLoads state resps).edges
      = state.edges ++ (resps.map PageResponse.edges).flatten := by
    induction resps generalizing state with
    | nil => simp [applyLoads]
    | cons r rs ih =>
      simp only [applyLoads, List.foldl_cons, List.map_cons, List.flatten] at *
      rw [ih (loadMoreSuccess state r)]
      simp [loadMoreSuccess]
  refine ⟨hedges, ?_, ?_⟩
  · rw [hedges]
    simp only [List.length_append, List.length_flatten, List.map_map]
    rfl
  · rw [hedges]
    simp

/-- C4: the view renders exactly one session item per edge, in edge order,
each keyed by that edge's cursor; when the cursors are pairwise distinct,
no two rendered items share a key. -/
theorem C4_one_item_per_edge (Node : Type) (state : ConnectionState Node)
    (h : (state.edges.map SessionEdge.cursor).Nodup) :
    renderedKeys (OAuth2SessionList state) = state.edges.map SessionEdge.cursor ∧
    renderedSessions (OAuth2SessionList state) = state.edges.map SessionEdge.node ∧
    (renderedKeys (OAuth2SessionList state)).Nodup := by
  refine ⟨renderedKeys_render state, renderedSessions_render state, ?_⟩
  rw [renderedKeys_render]
  exact h

theorem C4_one_item_per_edge_witness :
    (examplePage1.edges.map SessionEdge.cursor).Nodup ∧
    renderedKeys (OAuth2SessionList examplePage1) = ["c1", "c2"] :=
  ⟨by decide,
    ((C4_one_item_per_edge String examplePage1 (by decide)).1).trans (by decide)⟩

/-- C6: a failed load-more leaves the Connection State exactly as it was —
no partial append, `edges` and `hasNext` unchanged — the rendered output is
unchanged, and when `hasNext` was true the load-more control is still
offered, so the failure is retryable rather than state-corrupting. -/
theorem C6_failed_load_preserves_state (Node : Type) (state : ConnectionState Node) :
    loadMoreResult state none = state ∧
    OAuth2SessionList (loadMoreResult state none) = OAuth2SessionList state ∧
    (state.hasNext = true →
      RenderElement.loadMoreButton 2 ∈ OAuth2SessionList (loadMoreResult state none)) := by
  refine ⟨rfl, rfl, fun h => ?_⟩
  rw [button_mem_iff, renderedButtonSizes_render]
  show 2 ∈ if state.hasNext then [2] else []
  rw [h]
  simp

theorem C6_failed_load_preserves_state_witness :
    RenderElement.loadMoreButton 2
      ∈ OAuth2SessionList (loadMoreResult examplePage1 none) :=
  (C6_failed_load_preserves_state String examplePage1).2.2 rfl

/-- C7: a response whose `pageInfo` is missing is treated as
`hasNext = false` (fail safe), so after applying it the load-more control is
not offered. -/
theorem C7_missing_pageInfo_fail_safe (Node : Type) (state : ConnectionState Node)
    (edges : List (SessionEdge Node)) :
    (loadMoreSuccess state { edges := edges, pageInfo := none }).hasNext = false ∧
    renderedButtonSizes
        (OAuth2SessionList (loadMoreSuccess state { edges := edges, pageInfo := none }))
      = [] := by
  refine ⟨rfl, ?_⟩
  rw [renderedButtonSizes_render]
  rfl

/-- C8: every load-more button the view ever renders carries page size 2;
the increment is a constant of the component, not varying per invocation. -/
theorem C8_page_size_is_two (Node : Type) (state : ConnectionState Node) (n : Nat)
    (h : RenderElement.loadMoreButton n ∈ OAuth2SessionList state) : n = 2 := by
  rw [button_mem_iff, renderedButtonSizes_render] at h
  by_cases hb : state.hasNext = true
  · rw [hb] at h
    simpa using h
  · rw [Bool.not_eq_true] at hb
    rw [hb] at h
    simp at h

theorem C8_page_size_is_two_witness :
    RenderElement.loadMoreButton 2 ∈ OAuth2SessionList examplePage1 ∧ 2 = 2 :=
  ⟨by decide, C8_page_size_is_two String examplePage1 2 (by decide)⟩

/-- C9: the list view never inspects the session nodes: two connection
states agreeing on cursors and `hasNext` but with arbitrary node contents
produce identical output structure (heading, item keys, button), and the
nodes are passed through to the items unchanged. -/
theorem C9_nodes_passed_through (Node : Type) (s1 s2 : ConnectionState Node)
    (hc : s1.edges.map SessionEdge.cursor = s2.edges.map SessionEdge.cursor)
    (hn : s1.hasNext = s2.hasNext) :
    (OAuth2SessionList s1).map elementSkeleton
        = (OAuth2SessionList s2).map elementSkeleton ∧
    renderedSessions (OAuth2SessionList s1) = s1.edges.map SessionEdge.node := by
  have key : ∀ (s : ConnectionState Node),
      (OAuth2SessionList s).map elementSkeleton
        = RenderElement.heading "List of OAuth 2.0 sessions:"
            :: (s.edges.map SessionEdge.cursor).map
                (fun c => RenderElement.sessionItem c ())
            ++ (if s.hasNext then [RenderElement.loadMoreButton 2] else []) := by
    intro s
    obtain ⟨es, b⟩ := s
    cases b <;>
      simp [OAuth2SessionList, elementSkeleton, List.map_map, Function.comp]
  refine ⟨?_, renderedSessions_render s1⟩
  rw [key s1, key s2, hc, hn]

theorem C9_nodes_passed_through_witness :
    renderedSessions (OAuth2SessionList examplePage1) = ["S1", "S2"] :=
  (C9_nodes_passed_through String examplePage1 examplePage1 rfl rfl).2.trans (by decide)

/-- C10: rendering an empty connection is total and well-defined: no session
items are produced, the heading is still rendered, and when `hasNext` is
false the output is exactly the heading and nothing else. -/
theorem C10_empty_connection (Node : Type) (state : ConnectionState Node)
    (he : state.edges = []) :
    renderedSessions (OAuth2SessionList state) = [] ∧
    RenderElement.heading "List of OAuth 2.0 sessions:" ∈ OAuth2SessionList state ∧
    (state.hasNext = false →
      OAuth2SessionList state = [RenderElement.heading "List of OAuth 2.0 sessions:"]) := by
  refine ⟨?_, ?_, fun hb => ?_⟩
  · rw [renderedSessions_render, he]
    rfl
  · simp [OAuth2SessionList]
  · obtain ⟨es, b⟩ := state
    simp only at he hb
    rw [he, hb]
    rfl

theorem C10_empty_connection_witness :
    OAuth2SessionList ({ edges := [], hasNext := false } : ConnectionState String)
      = [RenderElement.heading "List of OAuth 2.0 sessions:"] :=
  (C10_empty_connection String { edges := [], hasNext := false } rfl).2.2 rfl
